import Mathlib

/-!
Verification of the `bookdata` SQL-script engine (`src/bookdata/db.py`).

This file gives a shallow embedding of the pieces of `db.py` that the
specification's claims are about:

* the stage/file ledger (`save_file`, `start_stage`, `finish_stage`);
* the script parser (`SqlScript._parse`, `_parse_chunk`, `_read_header`,
  `_read_query` and the two regexes `_sep_re`, `_icode_re`);
* the statement classifier (`describe_statement`, `is_empty`);
* the executor (`SqlScript.execute`, `SqlScript._run_step`) together with a
  model of psycopg2/PostgreSQL connection-and-transaction semantics;
* the dry-run mode (`SqlScript.describe`).

External-library behaviour (psycopg2, PostgreSQL, sqlparse, hashlib, pathlib)
is not source of this repository; where a definition models such behaviour its
doc comment says so explicitly.  Diagnostic-only side effects (`logging`
output, wall-clock timing, the `ELAPSED`/`ROWS` transcript lines) are elided:
they influence no claim.
-/

deriving instance DecidableEq for Except

namespace BookData

/-! ## Stage/file ledger (db.py lines 80-128)

The ledger lives in three PostgreSQL tables (`stage_status`, `source_file`,
`stage_file`, see `meta_schema` in db.py).  We model each table as a list of
rows, and each SQL statement the ledger functions issue as a function on that
state, following standard PostgreSQL semantics for
`INSERT ... ON CONFLICT ... DO UPDATE`, `UPDATE ... WHERE` and
`DELETE ... WHERE`. -/

/-- Timestamps (`now()` / `CURRENT_TIMESTAMP`) are opaque to the code; we model
them as naturals supplied by the caller. -/
abbrev Timestamp := Nat

/-- One row of the `stage_status` table. -/
structure StageRow where
  stage_name : String
  started_at : Timestamp
  finished_at : Option Timestamp
  stage_key : Option String
  deriving Repr, DecidableEq

/-- One row of the `source_file` table. -/
structure FileRow where
  filename : String
  reg_time : Timestamp
  checksum : String
  deriving Repr, DecidableEq

/-- One row of the `stage_file` table. -/
structure AssocRow where
  stage_name : String
  filename : String
  deriving Repr, DecidableEq

/-- The persisted ledger state (the three meta-schema tables). -/
structure Ledger where
  stage_status : List StageRow
  source_file : List FileRow
  stage_file : List AssocRow
  deriving Repr, DecidableEq

/-- The empty ledger. -/
def Ledger.empty : Ledger := ⟨[], [], []⟩

/-- PostgreSQL semantics of the statement issued by `start_stage`
(db.py lines 109-114):
`INSERT INTO stage_status (stage_name) VALUES (%s) ON CONFLICT (stage_name)
DO UPDATE SET started_at = now(), finished_at = NULL, stage_key = NULL`.
A fresh row takes `started_at` from the column default `CURRENT_TIMESTAMP`. -/
def upsertStage (rows : List StageRow) (stage : String) (t : Timestamp) : List StageRow :=
  if rows.any (fun r => r.stage_name == stage) then
    rows.map fun r =>
      if r.stage_name == stage then
        { r with started_at := t, finished_at := none, stage_key := none }
      else r
  else
    rows ++ [⟨stage, t, none, none⟩]

/-- PostgreSQL semantics of the statement issued by `save_file`
(db.py lines 90-95):
`INSERT INTO source_file (filename, checksum) VALUES (%(fn)s, %(hash)s)
ON CONFLICT (filename) DO UPDATE SET reg_time = now(), checksum = %(hash)s`.
A fresh row takes `reg_time` from the column default `CURRENT_TIMESTAMP`. -/
def upsertFile (rows : List FileRow) (p : String) (t : Timestamp) (hash : String) :
    List FileRow :=
  if rows.any (fun r => r.filename == p) then
    rows.map fun r =>
      if r.filename == p then { r with reg_time := t, checksum := hash } else r
  else
    rows ++ [⟨p, t, hash⟩]

/-- `save_file(cur, path, stage=None)` (db.py lines 80-100), cursor form.

The md5 streaming of the file's bytes (`hashlib`, external) is modelled by the
function argument `md5hex` applied to the file's content, and
`Path(path).as_posix()` (`pathlib`, external) by the argument `asPosix`; the
theorems below hold for every choice of these two functions.  `if stage:`
tests Python truthiness, so an empty-string stage inserts no association. -/
def save_file (md5hex : List Nat → String) (asPosix : String → String)
    (st : Ledger) (path : String) (content : List Nat)
    (stage : Option String) (t : Timestamp) : Ledger :=
  let hash := md5hex content
  let p := asPosix path
  let files := upsertFile st.source_file p t hash
  let assocs :=
    match stage with
    | some s => if s ≠ "" then st.stage_file ++ [⟨s, p⟩] else st.stage_file
    | none => st.stage_file
  { st with source_file := files, stage_file := assocs }

/-- `start_stage(cur, stage)` (db.py lines 103-115), cursor form: the two
`cur.execute` calls — upsert the `stage_status` row, then
`DELETE FROM stage_file WHERE stage_name = %s`. -/
def start_stage_cur (st : Ledger) (stage : String) (t : Timestamp) : Ledger :=
  { st with
    stage_status := upsertStage st.stage_status stage t,
    stage_file := st.stage_file.filter (fun a => ! (a.stage_name == stage)) }

/-- `finish_stage(cur, stage, key=None)` (db.py lines 118-128), cursor form:
`UPDATE stage_status SET finished_at = NOW(), stage_key = %(key)s
WHERE stage_name = %(stage)s`.  Updating a missing row affects zero rows. -/
def finish_stage_cur (st : Ledger) (stage : String) (key : Option String)
    (t : Timestamp) : Ledger :=
  { st with
    stage_status := st.stage_status.map fun r =>
      if r.stage_name == stage then { r with finished_at := some t, stage_key := key }
      else r }

/-- The two kinds of handle `start_stage`/`finish_stage` accept.  Modelled from
psycopg2 (external): a connection object has a `cursor` method (so
`hasattr(cur, 'cursor')` is true) but no `execute` method; a cursor object has
`execute` but no `cursor` attribute. -/
inductive Handle
  | connection
  | cursor
  deriving Repr, DecidableEq

/-- A Python exception escaping a ledger entry point. -/
inductive PyErr
  | attributeError (attr : String)
  deriving Repr, DecidableEq

/-- `start_stage(cur, stage)` (db.py lines 103-115), both handle forms.

Cursor form: `hasattr(cur, 'cursor')` is false, the guarded block is skipped
and the two executes run — `start_stage_cur`.

Connection form: `with cur, cur.cursor() as c: start_stage(c, stage)` runs the
cursor form in a scoped transaction, which the `with` block commits on exit.
There is no `return` after that block, so control falls through to
`cur.execute(...)` on the connection object itself; psycopg2 connections have
no `execute` attribute, so an `AttributeError` is raised (after the cursor-form
work has already been committed). -/
def start_stage (h : Handle) (st : Ledger) (stage : String) (t : Timestamp) :
    Ledger × Option PyErr :=
  match h with
  | .cursor => (start_stage_cur st stage t, none)
  | .connection => (start_stage_cur st stage t, some (.attributeError "execute"))

/-- `finish_stage(cur, stage, key=None)` (db.py lines 118-128), both handle
forms.  Same shape as `start_stage`: the connection form delegates to the
cursor form inside a committed scope, then falls through (missing `return`)
to `cur.execute(...)` on the connection and raises `AttributeError`. -/
def finish_stage (h : Handle) (st : Ledger) (stage : String) (key : Option String)
    (t : Timestamp) : Ledger × Option PyErr :=
  match h with
  | .cursor => (finish_stage_cur st stage key t, none)
  | .connection => (finish_stage_cur st stage key t, some (.attributeError "execute"))

/-! ## Script parser (db.py lines 189-296)

The parser consumes the script's lines (we model the line sequence the Python
file iterator yields, with the trailing newline of each line stripped: both
regexes use `.`/`\S`, which never match the trailing newline, so it is inert
for header parsing; for bodies it only pads `src` with blank interleaves that
every later use — `sqlparse.parse`, blank-line trimming — ignores). -/

/-- Python `\s` on ASCII input (`str.strip()` and the regexes' whitespace). -/
def isPyWs (c : Char) : Bool :=
  c = ' ' ∨ c = '\t' ∨ c = '\n' ∨ c = '\r' ∨ c = '\x0b' ∨ c = '\x0c'

/-- Python `\w` on ASCII input: `[A-Za-z0-9_]`. -/
def isWordChar (c : Char) : Bool :=
  c.isAlpha ∨ c.isDigit ∨ c = '_'

/-- A line is blank when `line.strip()` is falsy. -/
def isBlankLine (s : String) : Bool :=
  s.toList.all isPyWs

/-- Python `str.upper()` on ASCII input, modelled per-character. -/
def pyUpper (s : String) : String :=
  String.mk (s.toList.map Char.toUpper)

/-- `_sep_re = re.compile(r'^---\s*(?P<inst>.*)')` applied with `.match`:
anchored at the line start, three literal dashes, greedy whitespace, and the
rest of the line as the `inst` group.  Returns the `inst` group on a match. -/
def sepMatch (line : String) : Option String :=
  match line.toList with
  | '-' :: '-' :: '-' :: rest => some (String.mk (rest.dropWhile isPyWs))
  | _ => none

/-- `_icode_re = re.compile(r'#(?P<code>\w+)\s*(?P<args>.*\S)?\s*$')` applied
with `.match` to an `inst` string (which contains no newline): a leading `#`,
a nonempty run of word characters as `code`, and — after backtracking through
the whitespace — `args` spans from the first to the last non-whitespace
character of the remainder, or is `None` when the remainder is all
whitespace. -/
def icodeMatch (inst : String) : Option (String × Option String) :=
  match inst.toList with
  | '#' :: rest =>
    let code := rest.takeWhile isWordChar
    if code.isEmpty then none
    else
      let after := rest.drop code.length
      let args := ((after.dropWhile isPyWs).reverse.dropWhile isPyWs).reverse
      some (String.mk code, if args.isEmpty then none else some (String.mk args))
  | _ => none

/-- Modelled from psycopg2 (external): `psycopg2.errorcodes` exposes one
module attribute per symbolic PostgreSQL error-code name, bound to the
five-character SQLSTATE string.  We model the attribute table by a finite
association list containing the names this development exercises;
`getattr(psycopg2.errorcodes, name)` is lookup in it, `AttributeError` on a
miss. -/
def errorcodesTable : List (String × String) :=
  [("UNIQUE_VIOLATION", "23505"),
   ("UNDEFINED_TABLE", "42P01"),
   ("DUPLICATE_TABLE", "42P07"),
   ("INVALID_TABLE_DEFINITION", "42P16"),
   ("IN_FAILED_SQL_TRANSACTION", "25P02")]

/-- `getattr(psycopg2.errorcodes, name)` as table lookup. -/
def lookupErrcode (name : String) : Option String :=
  (errorcodesTable.find? (fun p => p.1 == name)).map (fun p => p.2)

/-- The exceptions `SqlScript` parsing can raise.  The spec's taxonomy calls
both of these ConfigurationError; concretely the code raises `ValueError`
(`invalid query instruction ...`, db.py line 273) for an unknown instruction
code and `AttributeError` for an `allow` argument that does not resolve in
`psycopg2.errorcodes` (or is absent, in which case `args.upper()` already
raises) at db.py line 265. -/
inductive ParseErr
  | invalidInstruction (code : String)
  | unknownErrorName (name : Option String)
  deriving Repr, DecidableEq

/-- `ScriptChunk` (db.py lines 189-198): label, allowed error codes, SQL
source, transaction flag.  `label` and `src` are `None` while the header is
being accumulated. -/
structure ScriptChunk where
  label : Option String
  allowed_errors : List String
  src : Option String
  use_transaction : Bool
  deriving Repr, DecidableEq

namespace SqlScript

/-- The loop of `SqlScript._read_header` (db.py lines 242-276), with the
accumulated `label`/`errs`/`tx` state explicit.  Each line matching `_sep_re`
is consumed; a consumed line whose `inst` does not match `_icode_re` is
skipped (`continue`); otherwise the instruction code is dispatched —
`step` sets the label, `allow` resolves its argument case-insensitively in
`psycopg2.errorcodes` and appends the code, `notx` clears the transaction
flag, and anything else raises.  The first non-matching line (or the end of
input) ends the header without being consumed. -/
def readHeaderAux (label : Option String) (errs : List String) (tx : Bool) :
    List String → Except ParseErr (ScriptChunk × List String)
  | [] => .ok (⟨label, errs, none, tx⟩, [])
  | line :: rest =>
    match sepMatch line with
    | none => .ok (⟨label, errs, none, tx⟩, line :: rest)
    | some inst =>
      match icodeMatch inst with
      | none => readHeaderAux label errs tx rest
      | some (code, args) =>
        if code = "step" then
          readHeaderAux args errs tx rest
        else if code = "allow" then
          match args with
          | none => .error (.unknownErrorName none)
          | some a =>
            match lookupErrcode (pyUpper a) with
            | some err => readHeaderAux label (errs ++ [err]) tx rest
            | none => .error (.unknownErrorName (some a))
        else if code = "notx" then
          readHeaderAux label errs false rest
        else
          .error (.invalidInstruction code)

/-- `SqlScript._read_header` (db.py lines 242-276). -/
def readHeader (lines : List String) : Except ParseErr (ScriptChunk × List String) :=
  readHeaderAux none [] true lines

/-- The consuming loop of `SqlScript._read_query` (db.py lines 282-285):
collect lines until the next `_sep_re` line or the end of input. -/
def readQueryLoop : List String → List String × List String
  | [] => ([], [])
  | line :: rest =>
    if (sepMatch line).isSome then ([], line :: rest)
    else
      let (q, r) := readQueryLoop rest
      (line :: q, r)

/-- The trimming loop of `_read_query` (db.py lines 288-291): pop blank lines
from the front, then from the back. -/
def trimBlanks (ls : List String) : List String :=
  ((ls.dropWhile isBlankLine).reverse.dropWhile isBlankLine).reverse

/-- `SqlScript._read_query` (db.py lines 278-296): collected and trimmed body
lines, or `none` at the end of input with nothing collected (`if qls or line
is not None: return qls / return None`). -/
def readQuery (lines : List String) : Option (List String) × List String :=
  let res := readQueryLoop lines
  let qls := trimBlanks res.1
  if qls.isEmpty ∧ res.2.isEmpty then (none, res.2) else (some qls, res.2)

/-- The three outcomes of `SqlScript._parse_chunk` (db.py lines 226-239):
`None` (end of file), `False` (an empty chunk, silently dropped), or a chunk. -/
inductive ChunkStep
  | eof
  | empty
  | chunk (c : ScriptChunk)
  deriving Repr, DecidableEq

/-- `SqlScript._parse_chunk(lines, n)` (db.py lines 226-239): read a header,
read a body; a non-empty body yields a chunk (defaulting the label to
`Step n`), an empty body yields `empty`, the end of input yields `eof`.
Also returns the unconsumed lines. -/
def parseChunkStep (lines : List String) (n : Nat) :
    Except ParseErr (ChunkStep × List String) :=
  match readHeader lines with
  | .error e => .error e
  | .ok (chunk, rest1) =>
    match readQuery rest1 with
    | (some qls, rest2) =>
      if qls.isEmpty then
        .ok (.empty, rest2)
      else
        let c1 :=
          if chunk.label.isNone then { chunk with label := some ("Step " ++ toString n) }
          else chunk
        .ok (.chunk { c1 with src := some ("\n".intercalate qls) }, rest2)
    | (none, rest2) => .ok (.eof, rest2)

/-- `readHeaderAux` only consumes lines: the remainder is no longer than the
input, and its first line (if any) does not match `_sep_re`. -/
theorem readHeaderAux_remainder (label : Option String) (errs : List String) (tx : Bool)
    (lines : List String) (c : ScriptChunk) (rest : List String)
    (h : readHeaderAux label errs tx lines = .ok (c, rest)) :
    rest.length ≤ lines.length ∧ ∀ x xs, rest = x :: xs → sepMatch x = none := by
  induction lines generalizing label errs tx c rest with
  | nil =>
    simp only [readHeaderAux, Except.ok.injEq, Prod.mk.injEq] at h
    obtain ⟨-, rfl⟩ := h
    exact ⟨Nat.le_refl _, fun x xs hx => by simp at hx⟩
  | cons line rest' ih =>
    simp only [readHeaderAux] at h
    split at h
    · rename_i hs
      simp only [Except.ok.injEq, Prod.mk.injEq] at h
      obtain ⟨-, rfl⟩ := h
      refine ⟨Nat.le_refl _, fun x xs hx => ?_⟩
      cases hx
      exact hs
    · rename_i inst hs
      split at h
      · obtain ⟨hlen, hhd⟩ := ih _ _ _ _ _ h
        exact ⟨Nat.le_succ_of_le hlen, hhd⟩
      · rename_i code args hi
        split at h
        · obtain ⟨hlen, hhd⟩ := ih _ _ _ _ _ h
          exact ⟨Nat.le_succ_of_le hlen, hhd⟩
        · split at h
          · split at h
            · simp at h
            · split at h
              · obtain ⟨hlen, hhd⟩ := ih _ _ _ _ _ h
                exact ⟨Nat.le_succ_of_le hlen, hhd⟩
              · simp at h
          · split at h
            · obtain ⟨hlen, hhd⟩ := ih _ _ _ _ _ h
              exact ⟨Nat.le_succ_of_le hlen, hhd⟩
            · simp at h

/-- `readQueryLoop` never grows the input. -/
theorem readQueryLoop_length_le (lines : List String) :
    (readQueryLoop lines).2.length ≤ lines.length := by
  induction lines with
  | nil => simp [readQueryLoop]
  | cons line rest ih =>
    simp only [readQueryLoop]
    cases hs : (sepMatch line).isSome with
    | true => simp [hs]
    | false =>
      simp only [hs, Bool.false_eq_true, if_false]
      exact Nat.le_succ_of_le ih

/-- When the first line is not a `_sep_re` line, `readQueryLoop` consumes at
least that line. -/
theorem readQueryLoop_consumes (line : String) (rest : List String)
    (h : sepMatch line = none) :
    (readQueryLoop (line :: rest)).2.length < (line :: rest).length := by
  simp only [readQueryLoop, h, Option.isSome_none, Bool.false_eq_true, if_false]
  exact Nat.lt_succ_of_le (readQueryLoop_length_le rest)

/-- When `_read_query` returns a body (even an empty one) and the input's
first line is not a separator line, it consumed at least one line. -/
theorem readQuery_some_progress (lines rest : List String) (q : List String)
    (hhd : ∀ x xs, lines = x :: xs → sepMatch x = none)
    (hq : readQuery lines = (some q, rest)) :
    rest.length < lines.length := by
  cases lines with
  | nil => simp [readQuery, readQueryLoop, trimBlanks] at hq
  | cons x xs =>
    have hx : sepMatch x = none := hhd x xs rfl
    have hc := readQueryLoop_consumes x xs hx
    simp only [readQuery] at hq
    split at hq
    · simp at hq
    · simp only [Prod.mk.injEq] at hq
      obtain ⟨-, rfl⟩ := hq
      exact hc

/-- A `_parse_chunk` call that yields an empty or real chunk strictly consumes
input (the decreasing measure of the `_parse` loop). -/
theorem parseChunkStep_progress (lines rest : List String) (n : Nat)
    (s : ChunkStep) (hs : s ≠ .eof)
    (h : parseChunkStep lines n = .ok (s, rest)) :
    rest.length < lines.length := by
  rw [parseChunkStep] at h
  cases hh : readHeader lines with
  | error e => rw [hh] at h; simp at h
  | ok cr =>
    rw [hh] at h
    obtain ⟨chunk, rest1⟩ := cr
    obtain ⟨hlen1, hhd⟩ := readHeaderAux_remainder none [] true lines chunk rest1 hh
    simp only at h
    split at h
    · rename_i qls rest2 hq
      have hprog := readQuery_some_progress rest1 rest2 qls hhd hq
      split at h
      · simp only [Except.ok.injEq, Prod.mk.injEq] at h
        obtain ⟨-, rfl⟩ := h
        exact Nat.lt_of_lt_of_le hprog hlen1
      · simp only [Except.ok.injEq, Prod.mk.injEq] at h
        obtain ⟨-, rfl⟩ := h
        exact Nat.lt_of_lt_of_le hprog hlen1
    · rename_i rest2 hq
      simp only [Except.ok.injEq, Prod.mk.injEq] at h
      obtain ⟨hse, -⟩ := h
      exact absurd hse.symm hs

/-- The loop of `SqlScript._parse` (db.py lines 218-224): repeatedly call
`_parse_chunk` with `n = len(chunks) + 1`, append real chunks, drop empty
ones, stop at the end of input; parse-time exceptions propagate. -/
def parseLoop (lines : List String) (acc : List ScriptChunk) :
    Except ParseErr (List ScriptChunk) :=
  match h : parseChunkStep lines (acc.length + 1) with
  | .error e => .error e
  | .ok (.eof, _) => .ok acc
  | .ok (.empty, rest) => parseLoop rest acc
  | .ok (.chunk c, rest) => parseLoop rest (acc ++ [c])
termination_by lines.length
decreasing_by
  · exact parseChunkStep_progress _ _ _ _ (by simp) h
  · exact parseChunkStep_progress _ _ _ _ (by simp) h

/-- `SqlScript._parse` (db.py lines 218-224) on the script's line sequence. -/
def parse (lines : List String) : Except ParseErr (List ScriptChunk) :=
  parseLoop lines []

end SqlScript

/-! ## Statement classifier (db.py lines 131-186)

`describe_statement` and `is_empty` operate on statements parsed by
`sqlparse` (external).  We model a parsed statement by its top-level token
list: each token carries sqlparse's token type (`ttype`) and `normalized`
value; grouped tokens (`sqlparse.sql.Identifier`, `sqlparse.sql.Function`,
parentheses and other groups) have `ttype` `None` and `normalized` equal to
their full text.  `Statement.get_type()` (sqlparse) returns the first
meaningful token's `normalized` when its ttype is DML or DDL, else
`'UNKNOWN'`; `Statement.get_real_name()` (sqlparse, a deeper traversal we do
not reproduce) is carried as a field of the model. -/

/-- sqlparse token types, as far as `db.py` distinguishes them.  A grouped
token's `ttype` is `none` in sqlparse; groups are separate constructors of
`SToken` below. -/
inductive TType
  | DDL
  | DML
  | Keyword
  | Name
  | Wildcard
  | Punct
  | Ws
  | Comment
  deriving Repr, DecidableEq

/-- One top-level token of a parsed statement: either a simple token with a
ttype, or one of the grouped forms `db.py` tests with `isinstance`. -/
inductive SToken
  | simple (ttype : TType) (normalized : String)
  | ident (normalized : String)
  | func (normalized : String)
  | group (normalized : String)
  deriving Repr, DecidableEq

/-- The `normalized` attribute: keywords come uppercased by sqlparse, groups
carry their text. -/
def SToken.normalized : SToken → String
  | .simple _ n => n
  | .ident n => n
  | .func n => n
  | .group n => n

/-- Whitespace or comment: what `token_next`/`token_first` skip with
`skip_ws=True, skip_cm=True`. -/
def SToken.isWsOrComment : SToken → Bool
  | .simple .Ws _ => true
  | .simple .Comment _ => true
  | _ => false

/-- `isinstance(t, sqlparse.sql.Identifier) or isinstance(t, sqlparse.sql.Function)`. -/
def SToken.isIdentOrFunc : SToken → Bool
  | .ident _ => true
  | .func _ => true
  | _ => false

/-- `t.ttype == sqlparse.tokens.Keyword` (grouped tokens have ttype `None`,
which compares unequal). -/
def SToken.isKeyword : SToken → Bool
  | .simple .Keyword _ => true
  | _ => false

/-- `lt.ttype == sqlparse.tokens.DDL`. -/
def SToken.isDDL : SToken → Bool
  | .simple .DDL _ => true
  | _ => false

/-- A parsed SQL statement: its top-level tokens plus the value sqlparse's
`get_real_name()` would report (external traversal, carried as data). -/
structure Statement where
  tokens : List SToken
  realName : Option String
  deriving Repr, DecidableEq

/-- `s.token_first(skip_cm=True, skip_ws=True)` / `s.token_next(-1,
skip_cm=True)`: the first token that is neither whitespace nor a comment. -/
def Statement.token_first (s : Statement) : Option SToken :=
  s.tokens.find? (fun t => ! t.isWsOrComment)

/-- The meaningful tokens of a statement in order — what iterating `_tokens`
(db.py lines 131-135, `skip_ws=True, skip_cm=True`) yields. -/
def Statement.meaningful (s : Statement) : List SToken :=
  s.tokens.filter (fun t => ! t.isWsOrComment)

/-- Modelled from sqlparse (external): `Statement.get_type()` — the first
meaningful token's `normalized` when its ttype is DML or DDL, `'UNKNOWN'`
otherwise (the CTE case is irrelevant to the statements modelled here). -/
def Statement.get_type (s : Statement) : String :=
  match s.token_first with
  | some (.simple .DML n) => n
  | some (.simple .DDL n) => n
  | _ => "UNKNOWN"

/-- `is_empty(s)` (db.py lines 183-186). -/
def is_empty (s : Statement) : Bool :=
  s.token_first.isNone

/-- The DDL accumulation loop of `describe_statement` (db.py lines 149-163),
walking the meaningful tokens after the leading DDL token.  After the first
token, an `Identifier`/`Function` is appended and ends the walk, and any
other non-keyword token ends it; the keyword `IF` switches into skipping
mode, in which tokens are consumed but not appended. -/
def ddlParts : List SToken → Bool → Bool → List String
  | [], _, _ => []
  | t :: rest, first, skipping =>
    if ¬ first ∧ t.isIdentOrFunc then [t.normalized]
    else if ¬ first ∧ ¬ t.isKeyword then []
    else
      let skipping' := skipping || t.normalized == "IF"
      (if skipping' then [] else [t.normalized]) ++ ddlParts rest false skipping'

/-- The leading keyword run of the `UNKNOWN` branch (db.py lines 167-174). -/
def leadingKeywords : List SToken → List String
  | [] => []
  | t :: rest => if t.isKeyword then t.normalized :: leadingKeywords rest else []

/-- `describe_statement(s)` (db.py lines 138-180). -/
def describe_statement (s : Statement) : Option String :=
  let label := s.get_type
  match s.meaningful with
  | [] => none
  | lt :: restTokens =>
    if lt.isDDL then
      some (label ++ " " ++ " ".intercalate (ddlParts restTokens true false))
    else if label == "UNKNOWN" then
      let ls := leadingKeywords (lt :: restTokens)
      let label' := if ls.isEmpty then label else " ".intercalate ls
      match s.realName with
      | some n => if n ≠ "" then some (label' ++ " " ++ n) else some label'
      | none => some label'
    else
      some label

/-! ### The golden statements of claim C6, as sqlparse tokenizes them

Modelled from sqlparse (external), version 0.4.x as pinned by the repository:
`IF`, `NOT`, `EXISTS`, `TABLE`, `INTO`, `FROM`, `VALUES` are simple Keyword
tokens; `CREATE` is DDL, `SELECT`/`INSERT` are DML; a bare table name is
wrapped in an `Identifier` group (for `CREATE TABLE` statements
`group_functions` explicitly declines to merge the name with the following
parenthesis); a parenthesized list is a `Parenthesis` group. -/

/-- `CREATE TABLE IF NOT EXISTS foo (col INT)` as tokenized by sqlparse. -/
def stmtCreateTableIfNotExistsFoo : Statement :=
  { tokens :=
      [.simple .DDL "CREATE", .simple .Ws " ", .simple .Keyword "TABLE", .simple .Ws " ",
       .simple .Keyword "IF", .simple .Ws " ", .simple .Keyword "NOT", .simple .Ws " ",
       .simple .Keyword "EXISTS", .simple .Ws " ", .ident "foo", .simple .Ws " ",
       .group "(col INT)"],
    realName := some "foo" }

/-- `SELECT * FROM t` as tokenized by sqlparse. -/
def stmtSelectStarFromT : Statement :=
  { tokens :=
      [.simple .DML "SELECT", .simple .Ws " ", .simple .Wildcard "*", .simple .Ws " ",
       .simple .Keyword "FROM", .simple .Ws " ", .ident "t"],
    realName := some "t" }

/-- `INSERT INTO bar VALUES (1, 2)` as tokenized by sqlparse. -/
def stmtInsertIntoBar : Statement :=
  { tokens :=
      [.simple .DML "INSERT", .simple .Ws " ", .simple .Keyword "INTO", .simple .Ws " ",
       .ident "bar", .simple .Ws " ", .simple .Keyword "VALUES", .simple .Ws " ",
       .group "(1, 2)"],
    realName := some "bar" }

/-! ## Dry-run mode: `SqlScript.describe` (db.py lines 327-331)

`describe` iterates the chunks and, for each, logs the chunk's label and then
one classified label per statement of `ScriptChunk.statements` (the
`sqlparse.parse` result with empty statements filtered out, db.py lines
196-198).  We model the emitted log lines as a list of events. -/

/-- A chunk as `describe` consumes it: its label together with the list of
statements `sqlparse.parse(self.src)` yields for its source (external
parsing, carried as data). -/
structure DChunk where
  label : String
  stmts : List Statement
  deriving Repr, DecidableEq

/-- The `statements` property of `ScriptChunk` (db.py lines 196-198):
`[s for s in sqlparse.parse(self.src) if not is_empty(s)]`. -/
def DChunk.statements (c : DChunk) : List Statement :=
  c.stmts.filter (fun s => ! is_empty s)

/-- One log line emitted by `describe`. -/
inductive LogEvt
  | chunk (label : String)
  | stmt (label : Option String)
  deriving Repr, DecidableEq

/-- `SqlScript.describe` (db.py lines 327-331): per chunk, a `Chunk` log line
followed by one `Statement` line per (non-empty) statement, classified by
`describe_statement`.  No database connection is touched: the function's
input is the chunk list alone. -/
def describeScript : List DChunk → List LogEvt
  | [] => []
  | step :: rest =>
    .chunk step.label :: (step.statements.map fun s => .stmt (describe_statement s))
      ++ describeScript rest

/-- Modelled from the spec: `describe(chunks) -> sequence of (chunkLabel,
statementLabel) pairs`, one pair per non-empty statement of each chunk, in
chunk order and statement source order. -/
def describePairs : List DChunk → List (String × Option String)
  | [] => []
  | step :: rest =>
    (step.statements.map fun s => (step.label, describe_statement s)) ++ describePairs rest

/-- Reading the pairs off the log-line stream: a `Chunk` line sets the current
chunk label, and each `Statement` line yields one pair under it. -/
def pairsOfEvents : Option String → List LogEvt → List (String × Option String)
  | _, [] => []
  | _, .chunk l :: rest => pairsOfEvents (some l) rest
  | some l, .stmt sl :: rest => (l, sl) :: pairsOfEvents (some l) rest
  | none, .stmt _ :: rest => pairsOfEvents none rest

/-! ## Executor (db.py lines 298-369)

`SqlScript.execute` runs each chunk against a psycopg2 connection.  We model:

* a statement to execute as its observable database behaviour: the abstract
  write it performs on success (`effect`), or the SQLSTATE code of the
  `psycopg2.Error` it raises (`fails`) — `cur.execute(str(sql))` is the only
  interaction with the statement's text;
* the connection by its committed effects, the pending effects of the open
  transaction, the aborted flag of that transaction, and the autocommit
  setting.

Modelled from psycopg2/PostgreSQL (external): with autocommit off,
`cur.execute` adds work to the connection's implicit transaction; a statement
error puts that transaction into the aborted state; `commit` on an aborted
transaction discards the pending work (PostgreSQL turns `COMMIT` of a failed
transaction into a rollback); executing anything else in an aborted
transaction raises `InFailedSqlTransaction` (25P02); `with connection:`
commits on normal exit and rolls back when an exception passes through, and
does not close the connection; with autocommit on, every statement commits
individually.  Diagnostic output (logging, transcript `STMT`/`ELAPSED`/`ROWS`
lines, timing, `cur.rowcount`) is elided: it influences no claim. -/

/-- A statement's database behaviour: the write it commits on success, or the
`pgcode` of the `psycopg2.Error` executing it raises. -/
structure MStmt where
  effect : String
  fails : Option String
  deriving Repr, DecidableEq

/-- A chunk as the executor consumes it: the parsed fields of `ScriptChunk`
with `statements` (the sqlparse split of `src`) given by behaviour. -/
structure ExecChunk where
  label : String
  allowed_errors : List String
  stmts : List MStmt
  use_transaction : Bool
  deriving Repr, DecidableEq

/-- The psycopg2 connection state (external model, see section comment). -/
structure ConnState where
  committed : List String
  pending : List String
  aborted : Bool
  autocommit : Bool
  deriving Repr, DecidableEq

/-- SQLSTATE raised when executing on an aborted transaction. -/
def inFailedSqlTransaction : String := "25P02"

/-- `cur.execute` of one statement (external psycopg2/PostgreSQL model). -/
def curExecute (st : ConnState) (s : MStmt) : ConnState × Option String :=
  if st.autocommit then
    match s.fails with
    | some code => (st, some code)
    | none => ({ st with committed := st.committed ++ [s.effect] }, none)
  else if st.aborted then
    (st, some inFailedSqlTransaction)
  else
    match s.fails with
    | some code => ({ st with aborted := true }, some code)
    | none => ({ st with pending := st.pending ++ [s.effect] }, none)

/-- `connection.commit()` (external model): applies the pending work, or
discards it when the transaction is aborted. -/
def connCommit (st : ConnState) : ConnState :=
  if st.aborted then { st with pending := [], aborted := false }
  else { st with committed := st.committed ++ st.pending, pending := [] }

/-- `connection.rollback()` — what `with connection:` does on exceptional
exit (external model). -/
def connRollback (st : ConnState) : ConnState :=
  { st with pending := [], aborted := false }

/-- The `for sql in step.statements:` loop in the `try` block of
`SqlScript._run_step` (db.py lines 334-353): execute each statement in
order; the first raised `psycopg2.Error` leaves the loop (carrying its
`pgcode`). -/
def runStmts (st : ConnState) : List MStmt → ConnState × Option String
  | [] => (st, none)
  | s :: rest =>
    match curExecute st s with
    | (st1, some e) => (st1, some e)
    | (st1, none) => runStmts st1 rest

/-- `SqlScript._run_step` (db.py lines 333-368): run the statements; on full
success commit if `commit` is set; on a `psycopg2.Error` whose `pgcode` is in
`step.allowed_errors`, log it and swallow it (return normally); otherwise
re-raise. -/
def run_step (step : ExecChunk) (commit : Bool) (st : ConnState) :
    ConnState × Option String :=
  match runStmts st step.stmts with
  | (st1, none) => (if commit then connCommit st1 else st1, none)
  | (st1, some e) =>
    if e ∈ step.allowed_errors then (st1, none)
    else (st1, some e)

/-- One iteration of the `for step in self.chunks:` loop of
`SqlScript.execute` (db.py lines 306-321).  Transactional chunk: `with dbc,
dbc.cursor() as cur: self._run_step(step, dbc, cur, True, ...)` — the `with`
block commits on normal exit and rolls back when the re-raised error passes
through.  Non-transactional chunk: save `dbc.autocommit`, force it on, run
with `commit=False`, and restore the saved setting in the `finally` block on
every exit path. -/
def run_chunk (step : ExecChunk) (st : ConnState) : ConnState × Option String :=
  if step.use_transaction then
    match run_step step true st with
    | (st1, none) => (connCommit st1, none)
    | (st1, some e) => (connRollback st1, some e)
  else
    let ac := st.autocommit
    match run_step step false { st with autocommit := true } with
    | (st1, none) => ({ st1 with autocommit := ac }, none)
    | (st1, some e) => ({ st1 with autocommit := ac }, some e)

/-- `SqlScript.execute` (db.py lines 298-325) over the chunk list: chunks run
in order; the first error a chunk re-raises propagates, and no later chunk
runs. -/
def execute (chunks : List ExecChunk) (st : ConnState) : ConnState × Option String :=
  match chunks with
  | [] => (st, none)
  | c :: rest =>
    match run_chunk c st with
    | (st1, none) => execute rest st1
    | (st1, some e) => (st1, some e)

/-! ### Concrete instances used by witnesses -/

/-- A concrete stand-in for the external md5 hex digest in concrete runs. -/
def sampleMd5 : List Nat → String := fun content => toString content.length

/-- A concrete stand-in for the external `Path(...).as_posix()` in concrete
runs. -/
def sampleNorm : String → String := fun p => p

/-- A transactional chunk whose second statement fails with an allowed code. -/
def allowedChunk : ExecChunk :=
  ⟨"chunk one", ["23505"], [⟨"w1", none⟩, ⟨"w2", some "23505"⟩], true⟩

/-- A transactional chunk whose second statement fails with a code that is
not allowed. -/
def fatalChunk : ExecChunk :=
  ⟨"boom", [], [⟨"w1", none⟩, ⟨"w2", some "42P01"⟩], true⟩

/-- A later chunk that must not run after a fatal error. -/
def sentinelChunk : ExecChunk :=
  ⟨"sentinel", [], [⟨"s1", none⟩], true⟩

/-- A connection with committed history, no open transaction, autocommit
off. -/
def cleanConn : ConnState := ⟨["prior"], [], false, false⟩

/-! ## Helper lemmas -/

/-- Two connection states with the same four fields are equal. -/
theorem ConnState.ext (a b : ConnState)
    (h1 : a.committed = b.committed) (h2 : a.pending = b.pending)
    (h3 : a.aborted = b.aborted) (h4 : a.autocommit = b.autocommit) : a = b := by
  cases a
  cases b
  simp only [ConnState.mk.injEq]
  exact ⟨h1, h2, h3, h4⟩

namespace SqlScript

/-- One unfolding of the `_parse` loop: end of input stops it. -/
theorem parseLoop_eof (lines x : List String) (acc : List ScriptChunk)
    (h : parseChunkStep lines (acc.length + 1) = .ok (.eof, x)) :
    parseLoop lines acc = .ok acc := by
  rw [parseLoop]
  split
  · rename_i h'; rw [h] at h'; exact absurd h' (by simp)
  · rfl
  · rename_i h'; rw [h] at h'; simp at h'
  · rename_i h'; rw [h] at h'; simp at h'

/-- One unfolding of the `_parse` loop: an empty chunk is dropped and the loop
continues on the remaining lines with the chunk list unchanged. -/
theorem parseLoop_empty (lines rest : List String) (acc : List ScriptChunk)
    (h : parseChunkStep lines (acc.length + 1) = .ok (.empty, rest)) :
    parseLoop lines acc = parseLoop rest acc := by
  rw [parseLoop]
  split
  · rename_i h'; rw [h] at h'; exact absurd h' (by simp)
  · rename_i h'; rw [h] at h'; simp at h'
  · rename_i rest' h'; rw [h] at h'
    simp only [Except.ok.injEq, Prod.mk.injEq] at h'
    rw [h'.2]
  · rename_i h'; rw [h] at h'; simp at h'

/-- One unfolding of the `_parse` loop: a real chunk is appended and the loop
continues on the remaining lines. -/
theorem parseLoop_chunk (lines rest : List String) (acc : List ScriptChunk)
    (c : ScriptChunk)
    (h : parseChunkStep lines (acc.length + 1) = .ok (.chunk c, rest)) :
    parseLoop lines acc = parseLoop rest (acc ++ [c]) := by
  rw [parseLoop]
  split
  · rename_i h'; rw [h] at h'; exact absurd h' (by simp)
  · rename_i h'; rw [h] at h'; simp at h'
  · rename_i h'; rw [h] at h'; simp at h'
  · rename_i c' rest' h'; rw [h] at h'
    simp only [Except.ok.injEq, Prod.mk.injEq, ChunkStep.chunk.injEq] at h'
    rw [h'.1, h'.2]

end SqlScript

/-- `cur.execute` never changes the autocommit setting. -/
theorem curExecute_autocommit (st : ConnState) (s : MStmt) :
    (curExecute st s).1.autocommit = st.autocommit := by
  rw [curExecute]
  split
  · split <;> rfl
  · split
    · rfl
    · split <;> rfl

/-- The statement loop never changes the autocommit setting. -/
theorem runStmts_autocommit (l : List MStmt) (st : ConnState) :
    (runStmts st l).1.autocommit = st.autocommit := by
  induction l generalizing st with
  | nil => rfl
  | cons s rest ih =>
    rw [runStmts]
    cases hc : curExecute st s with
    | mk st1 r =>
      have hac : st1.autocommit = st.autocommit := by
        have := curExecute_autocommit st s
        rw [hc] at this
        exact this
      cases r with
      | none => simpa [hac] using (ih st1)
      | some e => simpa using hac

/-- `cur.execute` of a failing statement, autocommit off, live transaction:
the error aborts the transaction. -/
theorem curExecute_tx_fail (st : ConnState) (s : MStmt) (code : String)
    (hac : st.autocommit = false) (hab : st.aborted = false)
    (hf : s.fails = some code) :
    curExecute st s = ({ st with aborted := true }, some code) := by
  simp [curExecute, hac, hab, hf]

/-- `cur.execute` of a successful statement, autocommit off, live
transaction: the work joins the pending transaction. -/
theorem curExecute_tx_ok (st : ConnState) (s : MStmt)
    (hac : st.autocommit = false) (hab : st.aborted = false)
    (hf : s.fails = none) :
    curExecute st s = ({ st with pending := st.pending ++ [s.effect] }, none) := by
  simp [curExecute, hac, hab, hf]

/-- `cur.execute` of a failing statement with autocommit on: the error is
raised and the state is untouched. -/
theorem curExecute_auto_fail (st : ConnState) (s : MStmt) (code : String)
    (hac : st.autocommit = true) (hf : s.fails = some code) :
    curExecute st s = (st, some code) := by
  simp [curExecute, hac, hf]

/-- `cur.execute` of a successful statement with autocommit on: the work
commits immediately. -/
theorem curExecute_auto_ok (st : ConnState) (s : MStmt)
    (hac : st.autocommit = true) (hf : s.fails = none) :
    curExecute st s = ({ st with committed := st.committed ++ [s.effect] }, none) := by
  simp [curExecute, hac, hf]

/-- Running statements with autocommit off from a live (non-aborted)
transaction: when the loop ends in an error, the transaction is aborted, and
nothing has been committed — all successful work sits in `pending`. -/
theorem runStmts_error_tx (l : List MStmt) (st st1 : ConnState) (e : String)
    (hac : st.autocommit = false) (hab : st.aborted = false)
    (h : runStmts st l = (st1, some e)) :
    st1.aborted = true ∧ st1.committed = st.committed ∧ st1.autocommit = false := by
  induction l generalizing st with
  | nil => simp [runStmts] at h
  | cons s rest ih =>
    rw [runStmts] at h
    cases hf : s.fails with
    | some code =>
      rw [curExecute_tx_fail st s code hac hab hf] at h
      change ({ st with aborted := true }, some code) = (st1, some e) at h
      simp only [Prod.mk.injEq, Option.some.injEq] at h
      obtain ⟨h1, -⟩ := h
      rw [← h1]
      exact ⟨rfl, rfl, hac⟩
    | none =>
      rw [curExecute_tx_ok st s hac hab hf] at h
      change runStmts { st with pending := st.pending ++ [s.effect] } rest = (st1, some e) at h
      exact ih { st with pending := st.pending ++ [s.effect] } hac hab h

/-- Running statements with autocommit on touches neither the pending work
nor the aborted flag: every successful statement commits by itself. -/
theorem runStmts_autocommit_mode (l : List MStmt) (st st1 : ConnState)
    (r : Option String) (hac : st.autocommit = true)
    (h : runStmts st l = (st1, r)) :
    st1.pending = st.pending ∧ st1.aborted = st.aborted := by
  induction l generalizing st with
  | nil =>
    rw [runStmts] at h
    simp only [Prod.mk.injEq] at h
    rw [← h.1]
    exact ⟨rfl, rfl⟩
  | cons s rest ih =>
    rw [runStmts] at h
    cases hf : s.fails with
    | some code =>
      rw [curExecute_auto_fail st s code hac hf] at h
      change (st, some code) = (st1, r) at h
      simp only [Prod.mk.injEq] at h
      rw [← h.1]
      exact ⟨rfl, rfl⟩
    | none =>
      rw [curExecute_auto_ok st s hac hf] at h
      change runStmts { st with committed := st.committed ++ [s.effect] } rest = (st1, r) at h
      exact ih { st with committed := st.committed ++ [s.effect] } hac h

/-- Statement log lines under an active chunk label each yield one pair. -/
theorem pairsOfEvents_stmt_block (l : String) (f : Statement → Option String)
    (sts : List Statement) (rest : List LogEvt) :
    pairsOfEvents (some l) ((sts.map fun s => LogEvt.stmt (f s)) ++ rest)
      = (sts.map fun s => (l, f s)) ++ pairsOfEvents (some l) rest := by
  induction sts with
  | nil => rfl
  | cons s ss ih => simp [pairsOfEvents, ih]

/-- A `describe` output stream is either empty or opens with a `Chunk` line,
so the label in hand when it starts is irrelevant. -/
theorem pairsOfEvents_describeScript (chunks : List DChunk) (o o' : Option String) :
    pairsOfEvents o (describeScript chunks) = pairsOfEvents o' (describeScript chunks) := by
  cases chunks with
  | nil => simp [describeScript, pairsOfEvents]
  | cons c rest => simp [describeScript, pairsOfEvents]

/-! ## The claims -/

/-- C1: for every stage name and ledger state, the connection form of
`start_stage`/`finish_stage` performs exactly the ledger update of the cursor
form (the scoped transaction opens, the cursor form runs, and the scope
commits on exit), and the cursor form returns without raising — but the
connection form then falls through (the `return` after the recursive call is
missing) to `cur.execute(...)` on the connection handle and raises
`AttributeError` instead of returning normally.  This refutes the claim's
"then returns normally to the caller without raising". -/
theorem start_finish_stage_connection_form_raises :
    ∀ (st : Ledger) (stage : String) (key : Option String) (t : Timestamp),
      (start_stage .connection st stage t).1 = (start_stage .cursor st stage t).1
      ∧ (start_stage .cursor st stage t).2 = none
      ∧ (start_stage .connection st stage t).2 = some (.attributeError "execute")
      ∧ (finish_stage .connection st stage key t).1 = (finish_stage .cursor st stage key t).1
      ∧ (finish_stage .cursor st stage key t).2 = none
      ∧ (finish_stage .connection st stage key t).2 = some (.attributeError "execute") :=
  fun _ _ _ _ => ⟨rfl, rfl, rfl, rfl, rfl, rfl⟩

/-- C10: during the header phase, a consumed line that matches `_sep_re` but
whose instruction text does not match `_icode_re` (a bare `---`, or `---`
followed by text that is not `#` plus word characters) is silently skipped:
whatever header state has been accumulated, reading the header of `line ::
rest` is reading the header of `rest` — no error, no attribute change, and
the line is consumed, so it can reach no chunk body. -/
theorem read_header_skips_unmatched_directive_lines :
    ∀ (label : Option String) (errs : List String) (tx : Bool) (line : String)
      (rest : List String) (inst : String),
      sepMatch line = some inst → icodeMatch inst = none →
      SqlScript.readHeaderAux label errs tx (line :: rest)
        = SqlScript.readHeaderAux label errs tx rest := by
  intro label errs tx line rest inst hsep hicode
  simp only [SqlScript.readHeaderAux, hsep, hicode]

/-- C10 witness: the concrete comment line `--- some comment` matches
`_sep_re` but not `_icode_re`, and is skipped by the header reader. -/
theorem read_header_skips_unmatched_directive_lines_witness :
    sepMatch "--- some comment" = some "some comment"
    ∧ icodeMatch "some comment" = none
    ∧ SqlScript.readHeaderAux none [] true ["--- some comment", "SELECT 1;"]
        = SqlScript.readHeaderAux none [] true ["SELECT 1;"] :=
  ⟨by decide, by decide,
    read_header_skips_unmatched_directive_lines none [] true "--- some comment"
      ["SELECT 1;"] "some comment" (by decide) (by decide)⟩

/-- C4: parsing is total — on every line sequence `parse` returns a chunk
list or one of the two parse-time configuration errors, and nothing else —
and the two directive failures behave as claimed: an `allow` whose argument
does not resolve (case-insensitively) in the error-code table raises, as does
any unrecognized instruction code. -/
theorem parse_is_total_and_rejects_bad_directives :
    (∀ lines : List String,
        (∃ cs, SqlScript.parse lines = .ok cs) ∨ (∃ e, SqlScript.parse lines = .error e))
    ∧ (∀ (label : Option String) (errs : List String) (tx : Bool) (line : String)
          (rest : List String) (inst a : String),
        sepMatch line = some inst → icodeMatch inst = some ("allow", some a) →
        lookupErrcode (pyUpper a) = none →
        SqlScript.readHeaderAux label errs tx (line :: rest)
          = .error (.unknownErrorName (some a)))
    ∧ (∀ (label : Option String) (errs : List String) (tx : Bool) (line : String)
          (rest : List String) (inst code : String) (args : Option String),
        sepMatch line = some inst → icodeMatch inst = some (code, args) →
        code ≠ "step" → code ≠ "allow" → code ≠ "notx" →
        SqlScript.readHeaderAux label errs tx (line :: rest)
          = .error (.invalidInstruction code)) := by
  refine ⟨?_, ?_, ?_⟩
  · intro lines
    cases h : SqlScript.parse lines with
    | ok cs => exact .inl ⟨cs, rfl⟩
    | error e => exact .inr ⟨e, rfl⟩
  · intro label errs tx line rest inst a hsep hicode hlook
    simp only [SqlScript.readHeaderAux, hsep, hicode, hlook]
    simp
  · intro label errs tx line rest inst code args hsep hicode h1 h2 h3
    simp only [SqlScript.readHeaderAux, hsep, hicode, h1, h2, h3]
    simp [h1, h2, h3]

/-- C4 witness: concrete instances — parse of a one-line script is settled
one way or the other; `--- #allow BOGUS_NAME` fails because `BOGUS_NAME` is
not in the error-code table; `--- #frobnicate` fails as an invalid query
instruction. -/
theorem parse_is_total_and_rejects_bad_directives_witness :
    ((∃ cs, SqlScript.parse ["SELECT 1;"] = .ok cs)
        ∨ (∃ e, SqlScript.parse ["SELECT 1;"] = .error e))
    ∧ SqlScript.readHeaderAux none [] true ["--- #allow BOGUS_NAME", "SELECT 1;"]
        = .error (.unknownErrorName (some "BOGUS_NAME"))
    ∧ SqlScript.readHeaderAux none [] true ["--- #frobnicate", "SELECT 1;"]
        = .error (.invalidInstruction "frobnicate") :=
  ⟨parse_is_total_and_rejects_bad_directives.1 ["SELECT 1;"],
    parse_is_total_and_rejects_bad_directives.2.1 none [] true "--- #allow BOGUS_NAME"
      ["SELECT 1;"] "#allow BOGUS_NAME" "BOGUS_NAME" (by decide) (by decide) (by decide),
    parse_is_total_and_rejects_bad_directives.2.2 none [] true "--- #frobnicate"
      ["SELECT 1;"] "#frobnicate" "frobnicate" none (by decide) (by decide)
      (by decide) (by decide) (by decide)⟩

/-- C5: the script `--- #step a` / `--- #step b` / `SELECT 1;` parses to
exactly one chunk, labelled `b` (the two consecutive directive lines are one
header run, the second `step` overwriting the first), and in general a
`_parse_chunk` round that returns an empty chunk adds nothing to the chunk
list: the parse loop continues on the remaining lines with the accumulator
unchanged — an empty chunk is dropped, not an error. -/
theorem parse_header_merge_and_empty_chunk_drop :
    SqlScript.parse ["--- #step a", "--- #step b", "SELECT 1;"]
      = .ok [⟨some "b", [], some "SELECT 1;", true⟩]
    ∧ (∀ (lines rest : List String) (acc : List ScriptChunk),
        SqlScript.parseChunkStep lines (acc.length + 1) = .ok (.empty, rest) →
        SqlScript.parseLoop lines acc = SqlScript.parseLoop rest acc) := by
  constructor
  · have h1 : SqlScript.parseChunkStep ["--- #step a", "--- #step b", "SELECT 1;"]
        (([] : List ScriptChunk).length + 1)
        = .ok (.chunk ⟨some "b", [], some "SELECT 1;", true⟩, []) := by decide
    have h2 : SqlScript.parseChunkStep []
        (([] ++ [(⟨some "b", [], some "SELECT 1;", true⟩ : ScriptChunk)]).length + 1)
        = .ok (.eof, []) := by decide
    rw [SqlScript.parse, SqlScript.parseLoop_chunk _ _ _ _ h1, SqlScript.parseLoop_eof _ _ _ h2]
    rfl
  · exact fun lines rest acc h => SqlScript.parseLoop_empty lines rest acc h

/-- C5 witness: a header run separated from the next by a blank line has an
empty body; `_parse_chunk` reports an empty chunk and the loop drops it. -/
theorem parse_header_merge_and_empty_chunk_drop_witness :
    SqlScript.parseChunkStep ["--- #step a", "", "--- #step b", "SELECT 1;"]
        (([] : List ScriptChunk).length + 1)
      = .ok (.empty, ["--- #step b", "SELECT 1;"])
    ∧ SqlScript.parseLoop ["--- #step a", "", "--- #step b", "SELECT 1;"] []
        = SqlScript.parseLoop ["--- #step b", "SELECT 1;"] [] :=
  ⟨by decide,
    parse_header_merge_and_empty_chunk_drop.2
      ["--- #step a", "", "--- #step b", "SELECT 1;"]
      ["--- #step b", "SELECT 1;"] [] (by decide)⟩

/-- C2: a transactional chunk whose statement run raises a database error
with a code in the chunk's allow-list leaves the connection exactly as it was
before the chunk — the successful statements' work was pending, the error
aborted the transaction, and the `with` block's commit of an aborted
transaction discards it — no error reaches the caller, and execution
proceeds with the next chunk. -/
theorem execute_allowed_error_rolls_back_and_continues
    (c : ExecChunk) (st : ConnState) (e : String)
    (htx : c.use_transaction = true)
    (hp : st.pending = []) (hab : st.aborted = false) (hac : st.autocommit = false)
    (hr : (runStmts st c.stmts).2 = some e)
    (he : e ∈ c.allowed_errors) :
    run_chunk c st = (st, none)
    ∧ ∀ rest : List ExecChunk, execute (c :: rest) st = execute rest st := by
  obtain ⟨st1, hst1⟩ : ∃ st1, runStmts st c.stmts = (st1, some e) :=
    ⟨(runStmts st c.stmts).1, by rw [← hr]⟩
  obtain ⟨habt, hcom, hact⟩ := runStmts_error_tx c.stmts st st1 e hac hab hst1
  have hstep : run_step c true st = (st1, none) := by
    simp only [run_step, hst1]
    simp [he]
  have hcc : connCommit st1 = st := by
    have hfields : ({ st1 with pending := [], aborted := false } : ConnState) = st :=
      ConnState.ext _ _ hcom hp.symm hab.symm (hact.trans hac.symm)
    simpa [connCommit, habt] using hfields
  have hchunk : run_chunk c st = (st, none) := by
    simp only [run_chunk, htx, if_true, hstep, hcc]
  refine ⟨hchunk, fun rest => ?_⟩
  simp only [execute, hchunk]

/-- C2 witness: a two-statement transactional chunk whose second statement
fails with the allowed code 23505 leaves the connection untouched and the
run continues with the next chunk. -/
theorem execute_allowed_error_rolls_back_and_continues_witness :
    allowedChunk.use_transaction = true
    ∧ cleanConn.pending = []
    ∧ (runStmts cleanConn allowedChunk.stmts).2 = some "23505"
    ∧ "23505" ∈ allowedChunk.allowed_errors
    ∧ run_chunk allowedChunk cleanConn = (cleanConn, none)
    ∧ execute [allowedChunk, sentinelChunk] cleanConn = execute [sentinelChunk] cleanConn :=
  ⟨rfl, rfl, by decide, by decide,
    (execute_allowed_error_rolls_back_and_continues allowedChunk cleanConn "23505"
      rfl rfl rfl rfl (by decide) (by decide)).1,
    (execute_allowed_error_rolls_back_and_continues allowedChunk cleanConn "23505"
      rfl rfl rfl rfl (by decide) (by decide)).2 [sentinelChunk]⟩

/-- C3: when the statement run of a chunk raises a database error whose code
is not in that chunk's allow-list, `execute` re-raises it, the result is the
same whatever chunks follow (no statement of theirs runs), and for a
transactional chunk the connection is back to its pre-chunk state: the
`with` block rolled the chunk's transactional work back before re-raising. -/
theorem execute_fatal_error_propagates_and_stops
    (c : ExecChunk) (st : ConnState) (e : String)
    (hp : st.pending = []) (hab : st.aborted = false) (hac : st.autocommit = false)
    (hr : (runStmts (if c.use_transaction then st else { st with autocommit := true })
            c.stmts).2 = some e)
    (he : e ∉ c.allowed_errors) :
    ∀ rest : List ExecChunk,
      (execute (c :: rest) st).2 = some e
      ∧ execute (c :: rest) st = execute [c] st
      ∧ (c.use_transaction = true → (execute (c :: rest) st).1 = st) := by
  cases htx : c.use_transaction with
  | true =>
    simp only [htx, if_true] at hr
    obtain ⟨st1, hst1⟩ : ∃ st1, runStmts st c.stmts = (st1, some e) :=
      ⟨(runStmts st c.stmts).1, by rw [← hr]⟩
    obtain ⟨habt, hcom, hact⟩ := runStmts_error_tx c.stmts st st1 e hac hab hst1
    have hstep : run_step c true st = (st1, some e) := by
      simp only [run_step, hst1]
      simp [he]
    have hrb : connRollback st1 = st :=
      ConnState.ext _ _ hcom hp.symm hab.symm (hact.trans hac.symm)
    have hchunk : run_chunk c st = (st, some e) := by
      simp only [run_chunk, htx, if_true, hstep, hrb]
    intro rest
    have hex : execute (c :: rest) st = (st, some e) := by
      simp only [execute, hchunk]
    have hex1 : execute [c] st = (st, some e) := by
      simp only [execute, hchunk]
    rw [hex, hex1]
    exact ⟨rfl, rfl, fun _ => rfl⟩
  | false =>
    simp only [htx, Bool.false_eq_true, if_false] at hr
    obtain ⟨st1, hst1⟩ :
        ∃ st1, runStmts { st with autocommit := true } c.stmts = (st1, some e) :=
      ⟨(runStmts { st with autocommit := true } c.stmts).1, by rw [← hr]⟩
    have hstep : run_step c false { st with autocommit := true } = (st1, some e) := by
      simp only [run_step, hst1]
      simp [he]
    have hchunk : run_chunk c st = ({ st1 with autocommit := st.autocommit }, some e) := by
      simp only [run_chunk, htx, Bool.false_eq_true, if_false, hstep]
    intro rest
    have hex : execute (c :: rest) st = ({ st1 with autocommit := st.autocommit }, some e) := by
      simp only [execute, hchunk]
    have hex1 : execute [c] st = ({ st1 with autocommit := st.autocommit }, some e) := by
      simp only [execute, hchunk]
    rw [hex, hex1]
    exact ⟨rfl, rfl, fun hcontra => absurd hcontra Bool.false_ne_true⟩

/-- C3 witness: a transactional chunk whose second statement fails with the
non-allowed code 42P01, followed by a sentinel chunk: `execute` raises, its
result ignores the sentinel, and the connection is unchanged. -/
theorem execute_fatal_error_propagates_and_stops_witness :
    cleanConn.pending = []
    ∧ (runStmts (if fatalChunk.use_transaction then cleanConn
          else { cleanConn with autocommit := true }) fatalChunk.stmts).2 = some "42P01"
    ∧ "42P01" ∉ fatalChunk.allowed_errors
    ∧ (execute [fatalChunk, sentinelChunk] cleanConn).2 = some "42P01"
    ∧ execute [fatalChunk, sentinelChunk] cleanConn = execute [fatalChunk] cleanConn
    ∧ (fatalChunk.use_transaction = true
        → (execute [fatalChunk, sentinelChunk] cleanConn).1 = cleanConn) :=
  ⟨rfl, by decide, by decide,
    (execute_fatal_error_propagates_and_stops fatalChunk cleanConn "42P01"
      rfl rfl rfl (by decide) (by decide) [sentinelChunk]).1,
    (execute_fatal_error_propagates_and_stops fatalChunk cleanConn "42P01"
      rfl rfl rfl (by decide) (by decide) [sentinelChunk]).2.1,
    (execute_fatal_error_propagates_and_stops fatalChunk cleanConn "42P01"
      rfl rfl rfl (by decide) (by decide) [sentinelChunk]).2.2⟩

/-- C6 counterexample: the classifier maps `INSERT INTO bar VALUES (1, 2)` to
plain `INSERT`: sqlparse types INSERT statements as DML, so neither the DDL
branch nor the `UNKNOWN` branch runs and the type label is returned verbatim.
The label is not `INSERT INTO bar`, and it carries no trace of the target
name `bar` (it does not even contain the letter `b`), so it is no
"real-name-augmented form" either. -/
theorem describe_insert_into_bar_is_plain_insert :
    describe_statement stmtInsertIntoBar = some "INSERT"
    ∧ some "INSERT" ≠ some "INSERT INTO bar"
    ∧ 'b' ∉ "INSERT".data := by
  exact ⟨by decide, by decide, by decide⟩

/-- C6 (amended): the classifier maps `CREATE TABLE IF NOT EXISTS foo (...)`
to `CREATE TABLE foo` (the IF/NOT/EXISTS keywords are skipped, the name is
kept) and `SELECT * FROM t` to `SELECT`, but maps `INSERT INTO bar VALUES
(...)` to `INSERT` — the statement's recognized type verbatim; augmentation
with the real target name happens only for statements of unrecognized type. -/
theorem describe_statement_golden_labels :
    describe_statement stmtCreateTableIfNotExistsFoo = some "CREATE TABLE foo"
    ∧ describe_statement stmtSelectStarFromT = some "SELECT"
    ∧ describe_statement stmtInsertIntoBar = some "INSERT" := by
  exact ⟨by decide, by decide, by decide⟩

/-- C7: `describe` consumes only the parsed chunks — its input has no
connection and its output is log lines, so it executes nothing — and the
emitted lines carry exactly the (chunk label, statement label) pairs of the
spec's description: one pair per non-empty statement of each chunk, in chunk
order and statement source order. -/
theorem describe_yields_chunk_statement_pairs :
    ∀ chunks : List DChunk,
      pairsOfEvents none (describeScript chunks) = describePairs chunks := by
  intro chunks
  induction chunks with
  | nil => rfl
  | cons c rest ih =>
    simp only [describeScript, describePairs, pairsOfEvents, List.append_eq]
    rw [pairsOfEvents_stmt_block, pairsOfEvents_describeScript rest (some c.label) none, ih]

/-- C8: (re)starting a stage deletes every `stage_file` association row of
that stage, from every prior ledger state; concretely, the sequence
`start_stage "x"; save_file "f.txt" under "x"; start_stage "x"` ends with
zero association rows for `"x"`. -/
theorem start_stage_wipes_stage_file_rows :
    (∀ (st : Ledger) (s : String) (t : Timestamp),
        (start_stage_cur st s t).stage_file.filter (fun a => a.stage_name == s) = [])
    ∧ ((start_stage_cur (save_file sampleMd5 sampleNorm
          (start_stage_cur Ledger.empty "x" 1) "f.txt" [7] (some "x") 2) "x" 3).stage_file.filter
          (fun a => a.stage_name == "x")).length = 0 := by
  constructor
  · intro st s t
    simp only [start_stage_cur]
    rw [List.filter_filter]
    simp
  · decide

/-- Updating the non-key columns of rows whose filename is not `p` creates no
row with filename `p`. -/
theorem filter_map_update_of_none (p : String) (t : Timestamp) (h : String)
    (rs : List FileRow)
    (hnil : rs.filter (fun x => x.filename == p) = []) :
    (rs.map fun x =>
        if x.filename == p then { x with reg_time := t, checksum := h } else x).filter
      (fun x => x.filename == p) = [] := by
  induction rs with
  | nil => rfl
  | cons x xs ih =>
    cases hx : x.filename == p with
    | true =>
      rw [List.filter_cons_of_pos (by simp [hx])] at hnil
      exact absurd hnil (by simp)
    | false =>
      rw [List.filter_cons_of_neg (by simp [hx])] at hnil
      rw [List.map_cons, List.filter_cons_of_neg (by simp [hx])]
      exact ih hnil

/-- PostgreSQL upsert on a table whose `filename` column holds at most one
row per value: afterwards exactly the row `(p, t, h)` matches `p`. -/
theorem filter_upsertFile (rows : List FileRow) (p : String) (t : Timestamp) (h : String)
    (hcount : (rows.filter (fun r => r.filename == p)).length ≤ 1) :
    (upsertFile rows p t h).filter (fun r => r.filename == p) = [⟨p, t, h⟩] := by
  induction rows with
  | nil => simp [upsertFile]
  | cons r rs ih =>
    cases hr : r.filename == p with
    | true =>
      have hre : r.filename = p := eq_of_beq hr
      have hnil : rs.filter (fun x => x.filename == p) = [] := by
        rw [List.filter_cons_of_pos (by simp [hr]), List.length_cons] at hcount
        have h0 : (rs.filter (fun x => x.filename == p)).length = 0 := by omega
        exact List.length_eq_zero.mp h0
      have hany : ((r :: rs).any fun x => x.filename == p) = true := by simp [hr]
      rw [upsertFile, if_pos hany, List.map_cons]
      rw [List.filter_cons_of_pos (by simp [hr])]
      rw [filter_map_update_of_none p t h rs hnil]
      simp [hr, hre]
    | false =>
      have hstep : (upsertFile (r :: rs) p t h).filter (fun x => x.filename == p)
          = (upsertFile rs p t h).filter (fun x => x.filename == p) := by
        cases hany : (rs.any fun x => x.filename == p) with
        | true =>
          have hany' : ((r :: rs).any fun x => x.filename == p) = true := by
            simp [List.any_cons, hany]
          rw [upsertFile, if_pos hany', upsertFile, if_pos hany, List.map_cons]
          rw [List.filter_cons_of_neg (by simp [hr])]
        | false =>
          have hany' : ¬ ((r :: rs).any fun x => x.filename == p) = true := by
            simp [List.any_cons, hr, hany]
          have hany'' : ¬ (rs.any fun x => x.filename == p) = true := by
            simp [hany]
          rw [upsertFile, if_neg hany', upsertFile, if_neg hany'']
          rw [List.cons_append, List.filter_cons_of_neg (by simp [hr])]
      rw [hstep]
      apply ih
      rw [List.filter_cons_of_neg (by simp [hr])] at hcount
      exact hcount

/-- C9: registering the same path twice — the contents, and so the checksums,
may differ — leaves exactly one `source_file` row for the path, carrying the
second call's checksum and registration time.  This holds for every hashing
and path-normalization function and for every prior ledger that satisfies the
filename primary key (at most one row per path). -/
theorem save_file_twice_single_upserted_row
    (md5hex : List Nat → String) (asPosix : String → String) (st : Ledger)
    (p : String) (c1 c2 : List Nat) (t1 t2 : Timestamp)
    (hcount : (st.source_file.filter (fun r => r.filename == asPosix p)).length ≤ 1) :
    ((save_file md5hex asPosix (save_file md5hex asPosix st p c1 none t1)
          p c2 none t2).source_file.filter (fun r => r.filename == asPosix p))
      = [⟨asPosix p, t2, md5hex c2⟩] := by
  have hmid : ((save_file md5hex asPosix st p c1 none t1).source_file.filter
      (fun r => r.filename == asPosix p)) = [⟨asPosix p, t1, md5hex c1⟩] :=
    filter_upsertFile st.source_file (asPosix p) t1 (md5hex c1) hcount
  have hcount2 : ((save_file md5hex asPosix st p c1 none t1).source_file.filter
      (fun r => r.filename == asPosix p)).length ≤ 1 := by
    rw [hmid]
    simp
  exact filter_upsertFile (save_file md5hex asPosix st p c1 none t1).source_file
    (asPosix p) t2 (md5hex c2) hcount2

/-- C9 witness: registering `f.txt` twice from the empty ledger, with
different contents at times 1 and 2, leaves the single row with the second
call's time and checksum. -/
theorem save_file_twice_single_upserted_row_witness :
    ((Ledger.empty.source_file.filter
        (fun r => r.filename == sampleNorm "f.txt")).length ≤ 1)
    ∧ ((save_file sampleMd5 sampleNorm
          (save_file sampleMd5 sampleNorm Ledger.empty "f.txt" [] none 1)
          "f.txt" [7] none 2).source_file.filter
          (fun r => r.filename == sampleNorm "f.txt"))
        = [⟨sampleNorm "f.txt", 2, sampleMd5 [7]⟩] :=
  ⟨by decide,
    save_file_twice_single_upserted_row sampleMd5 sampleNorm Ledger.empty
      "f.txt" [] [7] 1 2 (by decide)⟩

end BookData
